import Mathlib

/-!
Verification of the organization-membership reconciliation engine of
`pages-core` (`src/api/services/FederalistUsersHelper.js`) against its
natural-language specification.

The JavaScript module is embedded shallowly:

* A Sequelize `User` row becomes a `RosterEntry`; the roster is a
  `List RosterEntry`.  Timestamps are modelled as integers measured in
  days, so that `moment().subtract(maxDaysSinceLogin, 'days')` becomes
  plain integer subtraction.
* The GitHub client (`GitHub.getOrganizationMembers`,
  `GitHub.getTeamMembers`, `GitHub.removeOrganizationMember`) is an
  external collaborator.  Its responses are supplied by a `Gateway`
  record of response functions, and the outcome of each removal call is
  supplied by `Gateway.removeResult` (`none` = the promise resolves,
  `some e` = it rejects with error message `e`).
* Each operation returns an `OpResult`: the ordered list of GitHub calls
  it issued, the roster after its `User.update` mutations, the audit
  events sent to `EventCreator.audit` / `EventCreator.error`, and the
  overall outcome of the returned promise.  A missing auditor row makes
  the JS dereference `null` and reject before any GitHub call; this
  failure mode is the model's `Err.notFound`.
-/

namespace PagesCore

/-- An organization/team member as returned by the GitHub client
(`member.login` is the only field the helper reads). -/
structure ExternalMember where
  login : String
deriving DecidableEq, Repr

/-- A row of the `User` table, restricted to the columns
`FederalistUsersHelper` reads or writes. -/
structure RosterEntry where
  username : String
  isActive : Bool
  signedInAt : Int
  pushedAt : Int
  createdAt : Int
deriving DecidableEq, Repr

/-- A call issued against the external GitHub gateway. -/
inductive GatewayCall where
  | getOrganizationMembers (org : String) (role : Option String)
  | getTeamMembers (org team : String)
  | removeOrganizationMember (org login : String)
deriving DecidableEq, Repr

/-- An `EventCreator.audit(Event.labels.UPDATED, user, {action: {isActive}})`
event: the subject row's username and the new `isActive` value it carries. -/
structure AuditEvent where
  username : String
  isActive : Bool
deriving DecidableEq, Repr

/-- An `EventCreator.error(Event.labels.FEDERALIST_USERS, {error, login, action})`
event. -/
structure ErrorEvent where
  error : String
  login : String
  action : String
deriving DecidableEq, Repr

/-- Failure modes of an operation's returned promise. -/
inductive Err where
  | notFound
  | removal (login : String)
deriving DecidableEq, Repr

/-- Settlement of an operation's returned promise. -/
inductive Outcome where
  | ok
  | err (e : Err)
deriving DecidableEq, Repr

/-- Responses of the external GitHub collaborator: member lists per
(org, role filter), team member lists per (org, team), and the outcome
of `removeOrganizationMember` per (org, login): `none` when the call
resolves, `some e` when it rejects with error `e`. -/
structure Gateway where
  orgMembers : String → Option String → List ExternalMember
  teamMembers : String → String → List ExternalMember
  removeResult : String → String → Option String

/-- Observable result of one run of an operation. -/
structure OpResult where
  calls : List GatewayCall
  roster : List RosterEntry
  updateEvents : List AuditEvent
  errorEvents : List ErrorEvent
  outcome : Outcome
deriving DecidableEq, Repr

/-- JavaScript `String.prototype.toLowerCase()`, modelled as
character-wise lowering. -/
def toLowerCase (s : String) : String := ⟨s.data.map Char.toLower⟩

/-- `User.findOne({ where: { username } })`. -/
def findOne (roster : List RosterEntry) (username : String) : Option RosterEntry :=
  roster.find? (fun u => u.username == username)

/-- Is a gateway call a `removeOrganizationMember` request? -/
def isRemovalCall : GatewayCall → Bool
  | .removeOrganizationMember _ _ => true
  | _ => false

/-! ### audit18F -/

/-- The `where` predicate of the first `User.update` in
`refreshIsActiveUsers`: `username ∈ logins ∧ isActive = false`. -/
def activatePred (logins : List String) (u : RosterEntry) : Bool :=
  logins.contains u.username && !u.isActive

/-- The `where` predicate of the second `User.update` in
`refreshIsActiveUsers`: `username ∉ logins ∧ isActive = true`. -/
def deactivatePred (logins : List String) (u : RosterEntry) : Bool :=
  !(logins.contains u.username) && u.isActive

/-- Overwrite the `isActive` column of one row. -/
def setActive (b : Bool) (u : RosterEntry) : RosterEntry :=
  { u with isActive := b }

/-- Effect of `User.update({isActive: b}, {where: pred})` on one row. -/
def applyUpdate (pred : RosterEntry → Bool) (b : Bool) (u : RosterEntry) : RosterEntry :=
  if pred u then setActive b u else u

/-- `User.update({isActive: b}, {where: pred, returning: ...})`:
the table after the update, paired with the updated rows it returns. -/
def updateWhere (roster : List RosterEntry) (pred : RosterEntry → Bool) (b : Bool) :
    List RosterEntry × List RosterEntry :=
  (roster.map (applyUpdate pred b), (roster.filter pred).map (setActive b))

/-- The logins `audit18F` pushes removal promises for: when the 18F
member list is non-empty, every audited team member whose login is in
neither the 18F member list nor the admin list; otherwise none
(lines 40–53 of the source). -/
def audit18FTargets (members18F adminFedUsers : List String)
    (teams : List (List ExternalMember)) : List String :=
  if members18F.length > 0 then
    teams.flatMap (fun team =>
      (team.filter (fun m =>
        !(members18F.contains m.login) && !(adminFedUsers.contains m.login))).map
        (fun m => m.login))
  else []

/-- `audit18F({auditorUsername, fedUserTeams})`: prune non-18F,
non-admin users from the audited teams.  `org` is the configured
`FEDERALIST_ORG`.  The removal promises are awaited with `Promise.all`,
so the first rejecting removal makes the whole operation reject. -/
def audit18F (gw : Gateway) (org : String) (roster : List RosterEntry)
    (auditorUsername : String) (fedUserTeams : List String) : OpResult :=
  match findOne roster auditorUsername with
  | none => ⟨[], roster, [], [], .err .notFound⟩
  | some _auditor =>
    let members18F := (gw.orgMembers "18F" none).map (fun m => m.login)
    let adminFedUsers := (gw.orgMembers org (some "admin")).map (fun m => m.login)
    let teams := fedUserTeams.map (fun t => gw.teamMembers org t)
    let targets := audit18FTargets members18F adminFedUsers teams
    let readCalls := GatewayCall.getOrganizationMembers "18F" none ::
      GatewayCall.getOrganizationMembers org (some "admin") ::
      fedUserTeams.map (fun t => GatewayCall.getTeamMembers org t)
    let removeCalls := targets.map (fun l => GatewayCall.removeOrganizationMember org l)
    let outcome := match targets.find? (fun l => (gw.removeResult org l).isSome) with
      | some l => Outcome.err (.removal l)
      | none => Outcome.ok
    ⟨readCalls ++ removeCalls, roster, [], [], outcome⟩

/-! ### refreshIsActiveUsers -/

/-- The lower-cased org member logins computed at the top of
`refreshIsActiveUsers`: `members.map(m => m.login.toLowerCase())`. -/
def refreshLogins (gw : Gateway) (org : String) : List String :=
  (gw.orgMembers org none).map (fun m => toLowerCase m.login)

/-- `refreshIsActiveUsers(auditorUsername)`: lower-case the org member
logins, flip `isActive` on in-org inactive rows and off on out-of-org
active rows, and audit each returned row with its new value. -/
def refreshIsActiveUsers (gw : Gateway) (org : String) (roster : List RosterEntry)
    (auditorUsername : String) : OpResult :=
  match findOne roster auditorUsername with
  | none => ⟨[], roster, [], [], .err .notFound⟩
  | some _ =>
    let logins := refreshLogins gw org
    let upd1 := updateWhere roster (activatePred logins) true
    let evs1 := upd1.2.map (fun u => AuditEvent.mk u.username u.isActive)
    let upd2 := updateWhere upd1.1 (deactivatePred logins) false
    let evs2 := upd2.2.map (fun u => AuditEvent.mk u.username u.isActive)
    ⟨[GatewayCall.getOrganizationMembers org none], upd2.1, evs1 ++ evs2, [], .ok⟩

/-! ### removeMember, revokeMembershipForInactiveUsers -/

/-- The error events `removeMember(githubAccessToken, login)` emits: on
rejection of the removal call it catches the error and emits one
`FEDERALIST_USERS` error event with the error, the login and the action
name; on success it emits nothing. -/
def removeMemberEvents (gw : Gateway) (org login : String) : List ErrorEvent :=
  match gw.removeResult org login with
  | some e => [⟨e, login, "removeOrgMember"⟩]
  | none => []

/-- The `where` clause of the `User.findAll` in
`revokeMembershipForInactiveUsers`:
`isActive ∧ signedInAt < cutoff ∧ pushedAt < cutoff ∧ createdAt < cutoff`. -/
def isStale (cutoff : Int) (u : RosterEntry) : Bool :=
  u.isActive && decide (u.signedInAt < cutoff) && decide (u.pushedAt < cutoff)
    && decide (u.createdAt < cutoff)

/-- `revokeMembershipForInactiveUsers({auditorUsername})`: remove from
the org all roster rows stale w.r.t. `cutoff = now - maxDaysSinceLogin`.
Each removal goes through `removeMember`, which catches its own failure,
so the batch always resolves. -/
def revokeMembershipForInactiveUsers (gw : Gateway) (org : String)
    (roster : List RosterEntry) (auditorUsername : String)
    (now maxDaysSinceLogin : Int) : OpResult :=
  match findOne roster auditorUsername with
  | none => ⟨[], roster, [], [], .err .notFound⟩
  | some _ =>
    let cutoff := now - maxDaysSinceLogin
    let users := roster.filter (isStale cutoff)
    let calls := users.map (fun u => GatewayCall.removeOrganizationMember org u.username)
    let errs := users.flatMap (fun u => removeMemberEvents gw org u.username)
    ⟨calls, roster, [], errs, .ok⟩

/-! ### removeMembersWhoAreNotUsers -/

/-- The `memberLoginsToRemove` computed in `removeMembersWhoAreNotUsers`
(line 138 of the source): the org member logins whose lower-cased form
is not among the stored roster usernames. -/
def orphanLogins (gw : Gateway) (org : String) (roster : List RosterEntry) : List String :=
  ((gw.orgMembers org none).map (fun m => m.login)).filter
    (fun login => !((roster.map (fun u => u.username)).contains (toLowerCase login)))

/-- `removeMembersWhoAreNotUsers({auditorUsername})`: remove org members
whose lower-cased login is not among the stored roster usernames.  Each
removal goes through `removeMember` (failure caught per item). -/
def removeMembersWhoAreNotUsers (gw : Gateway) (org : String)
    (roster : List RosterEntry) (auditorUsername : String) : OpResult :=
  match findOne roster auditorUsername with
  | none => ⟨[], roster, [], [], .err .notFound⟩
  | some _ =>
    let toRemove := orphanLogins gw org roster
    ⟨GatewayCall.getOrganizationMembers org none ::
        toRemove.map (fun l => GatewayCall.removeOrganizationMember org l),
      roster, [], toRemove.flatMap (fun l => removeMemberEvents gw org l), .ok⟩

/-! ### Concrete fixtures used by witnesses and counterexamples -/

/-- A gateway whose organization member list is `["admin", "jane"]`
(for every org and role), with no team members and all removals
succeeding. -/
def gwJane : Gateway :=
  { orgMembers := fun _ _ => [⟨"admin"⟩, ⟨"jane"⟩]
    teamMembers := fun _ _ => []
    removeResult := fun _ _ => none }

/-- Like `gwJane` but the external login is capitalized `"Jane"`. -/
def gwJaneUpper : Gateway :=
  { orgMembers := fun _ _ => [⟨"admin"⟩, ⟨"Jane"⟩]
    teamMembers := fun _ _ => []
    removeResult := fun _ _ => none }

/-- The auditor's roster row. -/
def adminEntry : RosterEntry := ⟨"admin", true, 0, 0, 0⟩

/-- A roster whose second row stores the capitalized username `"Jane"`. -/
def rosterJane : List RosterEntry := [adminEntry, ⟨"Jane", true, 0, 0, 0⟩]

/-- A roster whose second row stores the lower-case username `"jane"`. -/
def rosterJaneLower : List RosterEntry := [adminEntry, ⟨"jane", true, 0, 0, 0⟩]

/-- A gateway for the team-pruning fixtures: 18F members `["Alice"]`,
no admins, one team containing only `"alice"`, and removal of `"alice"`
rejecting with `"boom"`. -/
def gwTeam : Gateway :=
  { orgMembers := fun o r => if o = "18F" then [⟨"Alice"⟩] else if r = some "admin" then [] else []
    teamMembers := fun _ _ => [⟨"alice"⟩]
    removeResult := fun _ l => if l = "alice" then some "boom" else none }

/-- A gateway with an empty 18F member list but non-empty teams. -/
def gwEmpty18F : Gateway :=
  { orgMembers := fun o _ => if o = "18F" then [] else [⟨"admin"⟩]
    teamMembers := fun _ _ => [⟨"stray"⟩, ⟨"admin"⟩]
    removeResult := fun _ _ => none }

/-- Three stale rows plus a fresh auditor row, relative to
`now = 100`, `maxDaysSinceLogin = 10` (cutoff `90`). -/
def rosterStale : List RosterEntry :=
  [⟨"admin", true, 99, 99, 99⟩, ⟨"u1", true, 0, 0, 0⟩, ⟨"u2", true, 1, 1, 1⟩,
   ⟨"u3", true, 2, 2, 2⟩]

/-- A gateway whose removals reject exactly for login `"u2"`, with
error `"boom"`. -/
def gwFailU2 : Gateway :=
  { orgMembers := fun _ _ => []
    teamMembers := fun _ _ => []
    removeResult := fun _ l => if l = "u2" then some "boom" else none }

/-! ### Helper lemmas on the activity refresh -/

theorem setActive_username (b : Bool) (u : RosterEntry) :
    (setActive b u).username = u.username := rfl

theorem applyUpdate_comp (L : List String) (u : RosterEntry) :
    applyUpdate (deactivatePred L) false (applyUpdate (activatePred L) true u)
      = setActive (L.contains u.username) u := by
  cases u with
  | mk un ia s p c =>
    by_cases hc : un ∈ L <;> cases ia <;>
      simp [applyUpdate, activatePred, deactivatePred, setActive, hc]

theorem deactivatePred_applyUpdate (L : List String) (u : RosterEntry) :
    deactivatePred L (applyUpdate (activatePred L) true u) = deactivatePred L u := by
  cases u with
  | mk un ia s p c =>
    by_cases hc : un ∈ L <;> cases ia <;>
      simp [applyUpdate, activatePred, deactivatePred, setActive, hc]

theorem applyUpdate_activate_of_deactivate (L : List String) (u : RosterEntry)
    (h : deactivatePred L u = true) : applyUpdate (activatePred L) true u = u := by
  simp only [deactivatePred, Bool.and_eq_true, Bool.not_eq_true'] at h
  have hn : u.username ∉ L := by simpa using h.1
  simp [applyUpdate, activatePred, hn]

theorem filter_deactivate_map_activate (L : List String) (roster : List RosterEntry) :
    (roster.map (applyUpdate (activatePred L) true)).filter (deactivatePred L)
      = roster.filter (deactivatePred L) := by
  rw [List.filter_map]
  have h1 : roster.filter (deactivatePred L ∘ applyUpdate (activatePred L) true)
      = roster.filter (deactivatePred L) :=
    List.filter_congr fun u _ => deactivatePred_applyUpdate L u
  rw [h1]
  rw [List.map_congr_left
    (fun u hu => applyUpdate_activate_of_deactivate L u (List.mem_filter.mp hu).2)]
  simp

/-- Functional characterization of one run of `refreshIsActiveUsers`
when the auditor row exists: it issues one member-list query, sets each
row's `isActive` to membership of its username in the lower-cased login
list, and audits exactly the transitioned rows with their new values. -/
theorem refreshIsActiveUsers_eq (gw : Gateway) (org : String)
    (roster : List RosterEntry) (a : String) (x : RosterEntry)
    (hfind : findOne roster a = some x) :
    refreshIsActiveUsers gw org roster a =
      { calls := [GatewayCall.getOrganizationMembers org none]
        roster := roster.map (fun u => setActive ((refreshLogins gw org).contains u.username) u)
        updateEvents :=
          (roster.filter (activatePred (refreshLogins gw org))).map
              (fun u => AuditEvent.mk u.username true)
            ++ (roster.filter (deactivatePred (refreshLogins gw org))).map
              (fun u => AuditEvent.mk u.username false)
        errorEvents := []
        outcome := .ok } := by
  unfold refreshIsActiveUsers
  rw [hfind]
  simp only [updateWhere]
  congr 1
  · rw [List.map_map]
    exact List.map_congr_left fun u _ => applyUpdate_comp _ u
  · congr 1
    · rw [List.map_map]
      exact List.map_congr_left fun u _ => rfl
    · rw [filter_deactivate_map_activate, List.map_map]
      exact List.map_congr_left fun u _ => rfl

theorem activatePred_setActive_contains (L : List String) (u : RosterEntry) :
    activatePred L (setActive (L.contains u.username) u) = false := by
  by_cases hc : u.username ∈ L <;> simp [activatePred, setActive, hc]

theorem deactivatePred_setActive_contains (L : List String) (u : RosterEntry) :
    deactivatePred L (setActive (L.contains u.username) u) = false := by
  by_cases hc : u.username ∈ L <;> simp [deactivatePred, setActive, hc]

theorem findOne_map_setActive (gw : Gateway) (org : String) (roster : List RosterEntry)
    (a : String) (x : RosterEntry) (hfind : findOne roster a = some x) :
    findOne (roster.map (fun u => setActive ((refreshLogins gw org).contains u.username) u)) a
      = some (setActive ((refreshLogins gw org).contains x.username) x) := by
  unfold findOne at hfind ⊢
  rw [List.find?_map]
  have h : ((fun u : RosterEntry => u.username == a)
        ∘ (fun u => setActive ((refreshLogins gw org).contains u.username) u))
      = fun u : RosterEntry => u.username == a := funext fun u => rfl
  rw [h, hfind]
  rfl

/-- Claim C3: one run of `refreshIsActiveUsers` sets `isActive` to true exactly
on the roster entries whose username is in the lower-cased login list and
currently have `isActive` false, to false exactly on the entries whose
username is not in the list and currently have `isActive` true, and emits
exactly one audit event carrying the new `isActive` value for each entry
that transitioned. -/
theorem refreshIsActiveUsers_transitions (gw : Gateway) (org : String)
    (roster : List RosterEntry) (a : String) (x : RosterEntry)
    (hfind : findOne roster a = some x) :
    refreshIsActiveUsers gw org roster a =
      { calls := [GatewayCall.getOrganizationMembers org none]
        roster := roster.map
          (fun u => setActive ((refreshLogins gw org).contains u.username) u)
        updateEvents :=
          (roster.filter (activatePred (refreshLogins gw org))).map
              (fun u => AuditEvent.mk u.username true)
            ++ (roster.filter (deactivatePred (refreshLogins gw org))).map
              (fun u => AuditEvent.mk u.username false)
        errorEvents := []
        outcome := .ok } :=
  refreshIsActiveUsers_eq gw org roster a x hfind

theorem refreshIsActiveUsers_transitions_witness :
    findOne rosterJane "admin" = some adminEntry ∧
    refreshIsActiveUsers gwJane "org" rosterJane "admin" =
      { calls := [GatewayCall.getOrganizationMembers "org" none]
        roster := rosterJane.map
          (fun u => setActive ((refreshLogins gwJane "org").contains u.username) u)
        updateEvents :=
          (rosterJane.filter (activatePred (refreshLogins gwJane "org"))).map
              (fun u => AuditEvent.mk u.username true)
            ++ (rosterJane.filter (deactivatePred (refreshLogins gwJane "org"))).map
              (fun u => AuditEvent.mk u.username false)
        errorEvents := []
        outcome := .ok } :=
  ⟨by decide,
   refreshIsActiveUsers_transitions gwJane "org" rosterJane "admin" adminEntry (by decide)⟩

/-- Claim C4: `refreshIsActiveUsers` is idempotent: a second run on the roster
produced by a first run, with the same external member list, changes no
row and emits no audit event. -/
theorem refreshIsActiveUsers_idempotent (gw : Gateway) (org : String)
    (roster : List RosterEntry) (a : String) (x : RosterEntry)
    (hfind : findOne roster a = some x) :
    (refreshIsActiveUsers gw org
        (refreshIsActiveUsers gw org roster a).roster a).roster
      = (refreshIsActiveUsers gw org roster a).roster
    ∧ (refreshIsActiveUsers gw org
        (refreshIsActiveUsers gw org roster a).roster a).updateEvents = [] := by
  have h1 := refreshIsActiveUsers_eq gw org roster a x hfind
  have h2 := refreshIsActiveUsers_eq gw org
    (roster.map (fun u => setActive ((refreshLogins gw org).contains u.username) u)) a
    (setActive ((refreshLogins gw org).contains x.username) x)
    (findOne_map_setActive gw org roster a x hfind)
  rw [h1, h2]
  have hact : ∀ v ∈ roster.map
      (fun u => setActive ((refreshLogins gw org).contains u.username) u),
      ¬ activatePred (refreshLogins gw org) v = true := by
    intro v hv
    obtain ⟨u, _, rfl⟩ := List.mem_map.mp hv
    rw [activatePred_setActive_contains]
    simp
  have hdeact : ∀ v ∈ roster.map
      (fun u => setActive ((refreshLogins gw org).contains u.username) u),
      ¬ deactivatePred (refreshLogins gw org) v = true := by
    intro v hv
    obtain ⟨u, _, rfl⟩ := List.mem_map.mp hv
    rw [deactivatePred_setActive_contains]
    simp
  constructor
  · show (roster.map
        (fun u => setActive ((refreshLogins gw org).contains u.username) u)).map
        (fun u => setActive ((refreshLogins gw org).contains u.username) u)
      = roster.map (fun u => setActive ((refreshLogins gw org).contains u.username) u)
    rw [List.map_map]
    exact List.map_congr_left fun u _ => rfl
  · show ((roster.map
        (fun u => setActive ((refreshLogins gw org).contains u.username) u)).filter
          (activatePred (refreshLogins gw org))).map (fun u => AuditEvent.mk u.username true)
      ++ ((roster.map
        (fun u => setActive ((refreshLogins gw org).contains u.username) u)).filter
          (deactivatePred (refreshLogins gw org))).map (fun u => AuditEvent.mk u.username false)
      = []
    rw [List.filter_eq_nil_iff.mpr hact, List.filter_eq_nil_iff.mpr hdeact]
    rfl

theorem refreshIsActiveUsers_idempotent_witness :
    findOne rosterJane "admin" = some adminEntry ∧
    ((refreshIsActiveUsers gwJane "org"
        (refreshIsActiveUsers gwJane "org" rosterJane "admin").roster "admin").roster
      = (refreshIsActiveUsers gwJane "org" rosterJane "admin").roster
    ∧ (refreshIsActiveUsers gwJane "org"
        (refreshIsActiveUsers gwJane "org" rosterJane "admin").roster "admin").updateEvents
      = []) :=
  ⟨by decide,
   refreshIsActiveUsers_idempotent gwJane "org" rosterJane "admin" adminEntry (by decide)⟩

/-- Claim C6: if no roster entry exists for the auditor username, every one of
the four operations fails with the not-found failure mode (the auditor
lookup returns nothing and the operation rejects), issues no gateway
call, leaves the roster unchanged and emits no event. -/
theorem operations_missing_auditor_abort (gw : Gateway) (org : String)
    (roster : List RosterEntry) (a : String) (teams : List String)
    (now maxDays : Int) (hfind : findOne roster a = none) :
    audit18F gw org roster a teams = ⟨[], roster, [], [], .err .notFound⟩
    ∧ refreshIsActiveUsers gw org roster a = ⟨[], roster, [], [], .err .notFound⟩
    ∧ revokeMembershipForInactiveUsers gw org roster a now maxDays
        = ⟨[], roster, [], [], .err .notFound⟩
    ∧ removeMembersWhoAreNotUsers gw org roster a = ⟨[], roster, [], [], .err .notFound⟩ := by
  refine ⟨?_, ?_, ?_, ?_⟩
  · unfold audit18F; rw [hfind]
  · unfold refreshIsActiveUsers; rw [hfind]
  · unfold revokeMembershipForInactiveUsers; rw [hfind]
  · unfold removeMembersWhoAreNotUsers; rw [hfind]

theorem operations_missing_auditor_abort_witness :
    findOne rosterJane "ghost" = none ∧
    (audit18F gwJane "org" rosterJane "ghost" ["team"]
        = ⟨[], rosterJane, [], [], .err .notFound⟩
      ∧ refreshIsActiveUsers gwJane "org" rosterJane "ghost"
        = ⟨[], rosterJane, [], [], .err .notFound⟩
      ∧ revokeMembershipForInactiveUsers gwJane "org" rosterJane "ghost" 100 10
        = ⟨[], rosterJane, [], [], .err .notFound⟩
      ∧ removeMembersWhoAreNotUsers gwJane "org" rosterJane "ghost"
        = ⟨[], rosterJane, [], [], .err .notFound⟩) :=
  ⟨by decide,
   operations_missing_auditor_abort gwJane "org" rosterJane "ghost" ["team"] 100 10 (by decide)⟩

/-- Claim C2: if the 18F reference-group member list comes back empty,
`audit18F` issues zero removal requests, regardless of the audited
teams' contents. -/
theorem audit18F_empty_reference_group_no_removals (gw : Gateway) (org : String)
    (roster : List RosterEntry) (a : String) (teams : List String)
    (h18 : gw.orgMembers "18F" none = []) :
    ((audit18F gw org roster a teams).calls).filter isRemovalCall = [] := by
  unfold audit18F
  cases hfind : findOne roster a with
  | none => rfl
  | some x =>
    simp only [audit18FTargets, h18, List.map_nil, List.length_nil]
    rw [List.filter_eq_nil_iff]
    intro c hc
    simp only [Nat.lt_irrefl, if_false, List.map_nil, List.append_nil, List.mem_cons,
      List.mem_map, gt_iff_lt] at hc
    rcases hc with rfl | rfl | ⟨t, _, rfl⟩ <;> simp [isRemovalCall]

theorem audit18F_empty_reference_group_no_removals_witness :
    gwEmpty18F.orgMembers "18F" none = [] ∧
    ((audit18F gwEmpty18F "org" rosterJane "admin" ["team"]).calls).filter isRemovalCall = [] :=
  ⟨by decide,
   audit18F_empty_reference_group_no_removals gwEmpty18F "org" rosterJane "admin" ["team"]
     (by decide)⟩

/-- Claim C8: `revokeMembershipForInactiveUsers` selects exactly the roster
rows with `isActive = true` whose `signedInAt`, `pushedAt` and
`createdAt` are all strictly before `now - maxDaysSinceLogin`; in
particular a row whose `createdAt` is at or after the cutoff is never
stale. -/
theorem revokeMembership_staleness_gate (gw : Gateway) (org : String)
    (roster : List RosterEntry) (a : String) (x : RosterEntry) (now maxDays : Int)
    (hfind : findOne roster a = some x) :
    (revokeMembershipForInactiveUsers gw org roster a now maxDays).calls
      = (roster.filter (fun u => u.isActive && decide (u.signedInAt < now - maxDays)
          && decide (u.pushedAt < now - maxDays)
          && decide (u.createdAt < now - maxDays))).map
          (fun u => GatewayCall.removeOrganizationMember org u.username)
    ∧ ∀ u : RosterEntry, now - maxDays ≤ u.createdAt
        → isStale (now - maxDays) u = false := by
  constructor
  · unfold revokeMembershipForInactiveUsers
    rw [hfind]
    rfl
  · intro u h
    simp [isStale, not_lt.mpr h]

theorem revokeMembership_staleness_gate_witness :
    findOne rosterStale "admin" = some ⟨"admin", true, 99, 99, 99⟩
    ∧ (revokeMembershipForInactiveUsers gwFailU2 "org" rosterStale "admin" 100 10).calls
      = (rosterStale.filter (fun u => u.isActive && decide (u.signedInAt < 100 - 10)
          && decide (u.pushedAt < 100 - 10)
          && decide (u.createdAt < 100 - 10))).map
          (fun u => GatewayCall.removeOrganizationMember "org" u.username)
    ∧ isStale (100 - 10) ⟨"fresh", true, 0, 0, 95⟩ = false :=
  ⟨by decide,
   (revokeMembership_staleness_gate gwFailU2 "org" rosterStale "admin"
     ⟨"admin", true, 99, 99, 99⟩ 100 10 (by decide)).1,
   (revokeMembership_staleness_gate gwFailU2 "org" rosterStale "admin"
     ⟨"admin", true, 99, 99, 99⟩ 100 10 (by decide)).2
     ⟨"fresh", true, 0, 0, 95⟩ (by decide)⟩

/-- Claim C5: the failure of one individual removal does not abort the
stale-user batch: with three selected stale rows where the second's
removal rejects, removal is attempted for all three, exactly one failure
audit event carrying the error, the login and the action name is
emitted (for the second), and the operation resolves. -/
theorem revokeMembership_partial_failure_isolation (gw : Gateway) (org : String)
    (roster : List RosterEntry) (a : String) (x u1 u2 u3 : RosterEntry)
    (e : String) (now maxDays : Int)
    (hfind : findOne roster a = some x)
    (hsel : roster.filter (isStale (now - maxDays)) = [u1, u2, u3])
    (h1 : gw.removeResult org u1.username = none)
    (h2 : gw.removeResult org u2.username = some e)
    (h3 : gw.removeResult org u3.username = none) :
    (revokeMembershipForInactiveUsers gw org roster a now maxDays).calls
      = [GatewayCall.removeOrganizationMember org u1.username,
         GatewayCall.removeOrganizationMember org u2.username,
         GatewayCall.removeOrganizationMember org u3.username]
    ∧ (revokeMembershipForInactiveUsers gw org roster a now maxDays).errorEvents
      = [⟨e, u2.username, "removeOrgMember"⟩]
    ∧ (revokeMembershipForInactiveUsers gw org roster a now maxDays).outcome = .ok := by
  unfold revokeMembershipForInactiveUsers
  rw [hfind]
  simp [hsel, removeMemberEvents, h1, h2, h3]

theorem revokeMembership_partial_failure_isolation_witness :
    findOne rosterStale "admin" = some ⟨"admin", true, 99, 99, 99⟩
    ∧ rosterStale.filter (isStale (100 - 10))
      = [⟨"u1", true, 0, 0, 0⟩, ⟨"u2", true, 1, 1, 1⟩, ⟨"u3", true, 2, 2, 2⟩]
    ∧ ((revokeMembershipForInactiveUsers gwFailU2 "org" rosterStale "admin" 100 10).calls
        = [GatewayCall.removeOrganizationMember "org" "u1",
           GatewayCall.removeOrganizationMember "org" "u2",
           GatewayCall.removeOrganizationMember "org" "u3"]
      ∧ (revokeMembershipForInactiveUsers gwFailU2 "org" rosterStale "admin" 100 10).errorEvents
        = [⟨"boom", "u2", "removeOrgMember"⟩]
      ∧ (revokeMembershipForInactiveUsers gwFailU2 "org" rosterStale "admin" 100 10).outcome
        = .ok) :=
  ⟨by decide, by decide,
   revokeMembership_partial_failure_isolation gwFailU2 "org" rosterStale "admin"
     ⟨"admin", true, 99, 99, 99⟩ ⟨"u1", true, 0, 0, 0⟩ ⟨"u2", true, 1, 1, 1⟩
     ⟨"u3", true, 2, 2, 2⟩ "boom" 100 10
     (by decide) (by decide) (by decide) (by decide) (by decide)⟩

/-- Explicit form of `audit18F` when the auditor row exists. -/
theorem audit18F_eq (gw : Gateway) (org : String) (roster : List RosterEntry)
    (a : String) (teams : List String) (x : RosterEntry)
    (hfind : findOne roster a = some x) :
    audit18F gw org roster a teams =
      { calls := (GatewayCall.getOrganizationMembers "18F" none ::
            GatewayCall.getOrganizationMembers org (some "admin") ::
            teams.map (fun t => GatewayCall.getTeamMembers org t))
          ++ (audit18FTargets ((gw.orgMembers "18F" none).map (fun m => m.login))
              ((gw.orgMembers org (some "admin")).map (fun m => m.login))
              (teams.map (fun t => gw.teamMembers org t))).map
            (fun l => GatewayCall.removeOrganizationMember org l)
        roster := roster
        updateEvents := []
        errorEvents := []
        outcome := match (audit18FTargets ((gw.orgMembers "18F" none).map (fun m => m.login))
              ((gw.orgMembers org (some "admin")).map (fun m => m.login))
              (teams.map (fun t => gw.teamMembers org t))).find?
              (fun l => (gw.removeResult org l).isSome) with
          | some l => Outcome.err (.removal l)
          | none => Outcome.ok } := by
  unfold audit18F
  rw [hfind]

/-- Claim C9: in `audit18F` per-item removal failures are not caught: no error
event is emitted, every targeted removal request is issued in one batch,
and a rejection of any one removal makes the whole operation reject. -/
theorem audit18F_removal_failure_propagates (gw : Gateway) (org : String)
    (roster : List RosterEntry) (a : String) (x : RosterEntry)
    (teams : List String) (l e : String)
    (hfind : findOne roster a = some x)
    (hl : l ∈ audit18FTargets ((gw.orgMembers "18F" none).map (fun m => m.login))
        ((gw.orgMembers org (some "admin")).map (fun m => m.login))
        (teams.map (fun t => gw.teamMembers org t)))
    (hrm : gw.removeResult org l = some e) :
    (audit18F gw org roster a teams).errorEvents = []
    ∧ (∀ t ∈ audit18FTargets ((gw.orgMembers "18F" none).map (fun m => m.login))
          ((gw.orgMembers org (some "admin")).map (fun m => m.login))
          (teams.map (fun t => gw.teamMembers org t)),
        GatewayCall.removeOrganizationMember org t ∈ (audit18F gw org roster a teams).calls)
    ∧ (audit18F gw org roster a teams).outcome ≠ Outcome.ok := by
  rw [audit18F_eq gw org roster a teams x hfind]
  refine ⟨rfl, ?_, ?_⟩
  · intro t ht
    exact List.mem_append_right _ (List.mem_map.mpr ⟨t, ht, rfl⟩)
  · have hex : ∃ y ∈ audit18FTargets ((gw.orgMembers "18F" none).map (fun m => m.login))
        ((gw.orgMembers org (some "admin")).map (fun m => m.login))
        (teams.map (fun t => gw.teamMembers org t)),
        (fun l => (gw.removeResult org l).isSome) y = true := ⟨l, hl, by simp [hrm]⟩
    have hs := List.find?_isSome.mpr hex
    cases hq : (audit18FTargets ((gw.orgMembers "18F" none).map (fun m => m.login))
        ((gw.orgMembers org (some "admin")).map (fun m => m.login))
        (teams.map (fun t => gw.teamMembers org t))).find?
        (fun l => (gw.removeResult org l).isSome) with
    | none => rw [hq] at hs; simp at hs
    | some l' => simp [hq]

theorem audit18F_removal_failure_propagates_witness :
    findOne rosterJane "admin" = some adminEntry
    ∧ "alice" ∈ audit18FTargets ((gwTeam.orgMembers "18F" none).map (fun m => m.login))
        ((gwTeam.orgMembers "org" (some "admin")).map (fun m => m.login))
        (["team"].map (fun t => gwTeam.teamMembers "org" t))
    ∧ gwTeam.removeResult "org" "alice" = some "boom"
    ∧ (audit18F gwTeam "org" rosterJane "admin" ["team"]).errorEvents = []
    ∧ GatewayCall.removeOrganizationMember "org" "alice"
        ∈ (audit18F gwTeam "org" rosterJane "admin" ["team"]).calls
    ∧ (audit18F gwTeam "org" rosterJane "admin" ["team"]).outcome ≠ Outcome.ok :=
  ⟨by decide, by decide, by decide,
   (audit18F_removal_failure_propagates gwTeam "org" rosterJane "admin" adminEntry
     ["team"] "alice" "boom" (by decide) (by decide) (by decide)).1,
   (audit18F_removal_failure_propagates gwTeam "org" rosterJane "admin" adminEntry
     ["team"] "alice" "boom" (by decide) (by decide) (by decide)).2.1 "alice" (by decide),
   (audit18F_removal_failure_propagates gwTeam "org" rosterJane "admin" adminEntry
     ["team"] "alice" "boom" (by decide) (by decide) (by decide)).2.2⟩

/-- Claim C10: membership in the 18F reference set and the admin set is tested
case-sensitively in `audit18F`: when the reference set is non-empty, a
team member whose login differs only in letter case from every
reference-group login and every admin login gets a removal request. -/
theorem audit18F_case_sensitive_membership (gw : Gateway) (org : String)
    (roster : List RosterEntry) (a : String) (x : RosterEntry)
    (teams : List String) (t : String) (m : ExternalMember)
    (hfind : findOne roster a = some x)
    (hne : (gw.orgMembers "18F" none).map (fun mm => mm.login) ≠ [])
    (ht : t ∈ teams) (hm : m ∈ gw.teamMembers org t)
    (h18 : ∀ a' ∈ (gw.orgMembers "18F" none).map (fun mm => mm.login),
      a' ≠ m.login ∧ toLowerCase a' = toLowerCase m.login)
    (hadm : ∀ a' ∈ (gw.orgMembers org (some "admin")).map (fun mm => mm.login),
      a' ≠ m.login ∧ toLowerCase a' = toLowerCase m.login) :
    GatewayCall.removeOrganizationMember org m.login
      ∈ (audit18F gw org roster a teams).calls := by
  rw [audit18F_eq gw org roster a teams x hfind]
  apply List.mem_append_right
  refine List.mem_map.mpr ⟨m.login, ?_, rfl⟩
  unfold audit18FTargets
  rw [if_pos (List.length_pos.mpr hne)]
  refine List.mem_flatMap.mpr ⟨gw.teamMembers org t, List.mem_map.mpr ⟨t, ht, rfl⟩, ?_⟩
  refine List.mem_map.mpr ⟨m, List.mem_filter.mpr ⟨hm, ?_⟩, rfl⟩
  have hn18 : m.login ∉ (gw.orgMembers "18F" none).map (fun mm => mm.login) :=
    fun hmem => (h18 _ hmem).1 rfl
  have hnadm : m.login ∉ (gw.orgMembers org (some "admin")).map (fun mm => mm.login) :=
    fun hmem => (hadm _ hmem).1 rfl
  simp only [Bool.and_eq_true, Bool.not_eq_true']
  constructor
  · simpa using hn18
  · simpa using hnadm

theorem audit18F_case_sensitive_membership_witness :
    findOne rosterJane "admin" = some adminEntry
    ∧ (gwTeam.orgMembers "18F" none).map (fun mm => mm.login) ≠ []
    ∧ "team" ∈ ["team"]
    ∧ ExternalMember.mk "alice" ∈ gwTeam.teamMembers "org" "team"
    ∧ GatewayCall.removeOrganizationMember "org" "alice"
        ∈ (audit18F gwTeam "org" rosterJane "admin" ["team"]).calls :=
  ⟨by decide, by decide, by decide, by decide,
   audit18F_case_sensitive_membership gwTeam "org" rosterJane "admin" adminEntry
     ["team"] "team" ⟨"alice"⟩ (by decide) (by decide) (by decide) (by decide)
     (by decide) (by decide)⟩

/-- Claim C1 (counterexample): with roster usernames `["admin", "Jane"]` and
external logins `["admin", "jane"]`, every external login lower-cased
appears in the lower-cased roster username set, yet
`removeMembersWhoAreNotUsers` issues one removal (for `"jane"`): the
code compares the lower-cased login against the usernames as stored,
not against their lower-cased forms. -/
theorem removeMembers_lowercase_roster_counterexample :
    (((gwJane.orgMembers "org" none).map (fun m => m.login)).all
        (fun l => ((rosterJane.map (fun u => u.username)).map toLowerCase).contains
          (toLowerCase l))) = true
    ∧ (removeMembersWhoAreNotUsers gwJane "org" rosterJane "admin").calls.filter isRemovalCall
      = [GatewayCall.removeOrganizationMember "org" "jane"] := by decide

/-- Claim C1 (amended): `removeMembersWhoAreNotUsers` issues exactly one
removal per external login whose lower-cased form is absent from the
roster username list as stored, and zero removals when every external
login's lower-cased form appears in that stored list. -/
theorem removeMembersWhoAreNotUsers_removals (gw : Gateway) (org : String)
    (roster : List RosterEntry) (a : String) (x : RosterEntry)
    (hfind : findOne roster a = some x) :
    (removeMembersWhoAreNotUsers gw org roster a).calls.filter isRemovalCall
      = (((gw.orgMembers org none).map (fun m => m.login)).filter
          (fun l => !((roster.map (fun u => u.username)).contains (toLowerCase l)))).map
          (fun l => GatewayCall.removeOrganizationMember org l)
    ∧ ((∀ l ∈ (gw.orgMembers org none).map (fun m => m.login),
          (roster.map (fun u => u.username)).contains (toLowerCase l) = true) →
        (removeMembersWhoAreNotUsers gw org roster a).calls.filter isRemovalCall = []) := by
  have hmain : (removeMembersWhoAreNotUsers gw org roster a).calls.filter isRemovalCall
      = (orphanLogins gw org roster).map (fun l => GatewayCall.removeOrganizationMember org l) := by
    unfold removeMembersWhoAreNotUsers
    rw [hfind]
    show (GatewayCall.getOrganizationMembers org none ::
        (orphanLogins gw org roster).map
          (fun l => GatewayCall.removeOrganizationMember org l)).filter isRemovalCall = _
    rw [List.filter_cons, if_neg (by simp [isRemovalCall])]
    exact List.filter_eq_self.mpr fun c hc => by
      obtain ⟨l', _, rfl⟩ := List.mem_map.mp hc
      rfl
  refine ⟨hmain, fun hall => ?_⟩
  rw [hmain]
  have : orphanLogins gw org roster = [] := by
    unfold orphanLogins
    rw [List.filter_eq_nil_iff]
    intro l hlmem hcontra
    have hc : (!((roster.map (fun u => u.username)).contains (toLowerCase l))) = true := hcontra
    rw [hall l hlmem] at hc
    simp at hc
  rw [this]
  rfl

theorem removeMembersWhoAreNotUsers_removals_witness :
    findOne rosterJaneLower "admin" = some adminEntry
    ∧ (removeMembersWhoAreNotUsers gwJane "org" rosterJaneLower "admin").calls.filter
        isRemovalCall
      = (((gwJane.orgMembers "org" none).map (fun m => m.login)).filter
          (fun l => !((rosterJaneLower.map (fun u => u.username)).contains
            (toLowerCase l)))).map
          (fun l => GatewayCall.removeOrganizationMember "org" l)
    ∧ (removeMembersWhoAreNotUsers gwJane "org" rosterJaneLower "admin").calls.filter
        isRemovalCall = [] :=
  ⟨by decide,
   (removeMembersWhoAreNotUsers_removals gwJane "org" rosterJaneLower "admin" adminEntry
     (by decide)).1,
   (removeMembersWhoAreNotUsers_removals gwJane "org" rosterJaneLower "admin" adminEntry
     (by decide)).2 (by decide)⟩

/-- Claim C7 (counterexample): a roster entry with stored username `"Jane"` is
NOT treated as matching the external login `"jane"`: the refresh flags
it inactive and the orphan removal issues a removal request for
`"jane"`. -/
theorem case_insensitive_match_counterexample :
    (refreshIsActiveUsers gwJane "org" rosterJane "admin").updateEvents
      = [AuditEvent.mk "Jane" false]
    ∧ GatewayCall.removeOrganizationMember "org" "jane"
        ∈ (removeMembersWhoAreNotUsers gwJane "org" rosterJane "admin").calls := by decide

/-- Claim C7 (amended): case normalization applies to the external login only:
a roster entry with stored username `"jane"` matches the external login
`"Jane"` in both computations, so the refresh performs no transition and
the orphan removal issues no removal request. -/
theorem case_normalization_external_login_only :
    (refreshIsActiveUsers gwJaneUpper "org" rosterJaneLower "admin").updateEvents = []
    ∧ (removeMembersWhoAreNotUsers gwJaneUpper "org" rosterJaneLower "admin").calls.filter
        isRemovalCall = [] := by decide

end PagesCore
